import Mathlib

/-!
Verification of the two numerical simulation engines of the
`simulation-course` repository.

* `Heat` — shallow embedding of `simulateHeatConduction` (Go backend of
  lab02, explicit finite-difference heat-diffusion solver).  The Go code
  computes with `float64`; the embedding idealises every `float64` value
  as a rational number `ℚ`, which keeps every definition computable.
  The control flow (stability gate, grid setup, double-buffered update
  loop, frame sampling) is translated line by line from the source.

* `Projectile` — shallow embedding of `simulate` (Go backend of lab01,
  drag-affected projectile integrator).  The source uses `math.Sqrt`,
  `math.Cos`, `math.Sin`, so the state is idealised over the real
  numbers `ℝ`.  The `for y >= 0` loop is bounded by the source's own
  step cap (`steps > 1000000` breaks the loop), hence it is embedded as
  a fuel recursion with fuel `1000001`, which is proved sufficient
  (`simLoop_canonical`): every larger fuel yields the same result.
-/

namespace Heat

/-- Mirrors Go `SimulationParams` (lab02 backend): the eight `float64`
simulation parameters, idealised as rationals. -/
structure SimulationParams where
  length : ℚ
  timeStep : ℚ
  spaceStep : ℚ
  totalTime : ℚ
  initialTemp : ℚ
  leftBoundary : ℚ
  rightBoundary : ℚ
  alpha : ℚ
deriving DecidableEq

/-- Mirrors Go `SimulationResult`: one emitted temperature frame. -/
structure SimulationResult where
  temperatures : List ℚ
  time : ℚ
  centerTemp : ℚ
  stable : Bool
deriving DecidableEq

/-- Go line `n := int(math.Ceil(params.Length/params.SpaceStep)) + 1`.
`Int.toNat` renders the (nonnegative, under the data-model invariants
`length > 0`, `spaceStep > 0`) integer as a list length; for a
nonpositive grid size the Go code would panic on `T[0]`, which is
outside the `HeatParams` data model and outside every theorem below. -/
def gridSize (p : SimulationParams) : ℕ :=
  (⌈p.length / p.spaceStep⌉).toNat + 1

/-- Go line `r := params.Alpha * params.TimeStep / (params.SpaceStep *
params.SpaceStep)`: the Courant number. -/
def courant (p : SimulationParams) : ℚ :=
  p.alpha * p.timeStep / (p.spaceStep * p.spaceStep)

/-- Go's `int(x)` conversion of a `float64` truncates toward zero. -/
def ratTrunc (q : ℚ) : ℤ :=
  if q < 0 then -⌊-q⌋ else ⌊q⌋

/-- Go line `steps := int(params.TotalTime / params.TimeStep)`;
a negative value makes the `for step := 0; step < steps` loop run zero
times, exactly as `Int.toNat` clamping does. -/
def numSteps (p : SimulationParams) : ℕ :=
  (ratTrunc (p.totalTime / p.timeStep)).toNat

/-- Go lines 58-68: fill `T` with `InitialTemp`, then
`T[0] = LeftBoundary` and `T[n-1] = RightBoundary`. -/
def initialTemps (p : SimulationParams) : List ℚ :=
  ((List.replicate (gridSize p) p.initialTemp).set 0 p.leftBoundary).set
    (gridSize p - 1) p.rightBoundary

/-- One pass of Go lines 84-95: `Tnew[i] = T[i] + r*(T[i+1]-2*T[i]+T[i-1])`
for the interior `1 ≤ i ≤ n-2`, then `Tnew[0] = LeftBoundary`,
`Tnew[n-1] = RightBoundary`, then `copy(T, Tnew)`.  The right-boundary
write comes last in the source, so the `i = length - 1` test is taken
first (they only overlap in the degenerate one-cell grid). -/
def heatStep (p : SimulationParams) (r : ℚ) (T : List ℚ) : List ℚ :=
  (List.range T.length).map (fun i =>
    if i = T.length - 1 then p.rightBoundary
    else if i = 0 then p.leftBoundary
    else T.getD i 0 + r * (T.getD (i + 1) 0 - 2 * T.getD i 0 + T.getD (i - 1) 0))

/-- Building one emitted `SimulationResult` (Go lines 76-81 and 100-105):
`CenterTemp` reads index `centerIdx := n / 2`, and `Stable` stores the
boolean `r <= 0.5`. -/
def mkFrame (p : SimulationParams) (r : ℚ) (T : List ℚ) (time : ℚ) :
    SimulationResult :=
  { temperatures := T, time := time,
    centerTemp := T.getD (gridSize p / 2) 0,
    stable := decide (r ≤ 1 / 2) }

/-- The time-stepping loop, Go lines 84-107.  `fuel` counts the
remaining iterations (the Go loop runs exactly `steps` times, so the
top-level call passes `fuel = steps`), `step` is the Go loop counter,
`T` the current buffer and `time` the Go variable `currentTime`.
A frame is appended when `step % 10 == 0 || step == steps-1`, after the
buffer swap and the `currentTime += TimeStep` update. -/
def heatSteps (p : SimulationParams) (r : ℚ) (steps : ℕ) :
    ℕ → ℕ → List ℚ → ℚ → List SimulationResult
  | 0, _, _, _ => []
  | fuel + 1, step, T, time =>
      let Tn := heatStep p r T
      let rest := heatSteps p r steps fuel (step + 1) Tn (time + p.timeStep)
      if step % 10 = 0 ∨ step = steps - 1 then
        mkFrame p r Tn (time + p.timeStep) :: rest
      else rest

/-- Go `simulateHeatConduction` (lab02 backend, lines 47-110): the
stability gate `if r > 0.5` returns the error
`"unstable parameters: r = %f > 0.5"` (the embedding renders the `%f`
placeholder with `toString` on the exact rational); otherwise the
initial frame at `time = 0` is stored and the stepping loop runs. -/
def simulateHeatConduction (p : SimulationParams) :
    Except String (List SimulationResult) :=
  let r := courant p
  if 1 / 2 < r then
    Except.error ("unstable parameters: r = " ++ toString r ++ " > 0.5")
  else
    Except.ok (mkFrame p r (initialTemps p) 0 ::
      heatSteps p r (numSteps p) (numSteps p) 0 (initialTemps p) 0)

/-- The first stored frame (Go lines 76-81). -/
def initFrame (p : SimulationParams) : SimulationResult :=
  mkFrame p (courant p) (initialTemps p) 0

/-- The loop indices `step ∈ [0, steps)` at which Go line 99
(`step%10 == 0 || step == steps-1`) stores a frame. -/
def emittedSteps (steps : ℕ) : List ℕ :=
  (List.range steps).filter (fun s => decide (s % 10 = 0 ∨ s = steps - 1))

/-- The frame stored at loop index `s`: the buffer after `s + 1`
applications of the update scheme, at time `(s + 1) · timeStep`. -/
def frameAt (p : SimulationParams) (s : ℕ) : SimulationResult :=
  mkFrame p (courant p) ((heatStep p (courant p))^[s + 1] (initialTemps p))
    ((s + 1 : ℕ) * p.timeStep)

/-- Concrete unstable parameters: `r = 1·1/(1·1) = 1 > 0.5`. -/
def pBad : SimulationParams :=
  { length := 1, timeStep := 1, spaceStep := 1, totalTime := 1,
    initialTemp := 20, leftBoundary := 100, rightBoundary := 0, alpha := 1 }

/-- Concrete stable parameters: `r = (1/2)·1/(1·1) = 1/2 ≤ 0.5`,
grid size `⌈2/1⌉ + 1 = 3`, step count `⌊2/1⌋ = 2`. -/
def pGood : SimulationParams :=
  { length := 2, timeStep := 1, spaceStep := 1, totalTime := 2,
    initialTemp := 20, leftBoundary := 100, rightBoundary := 0, alpha := 1 / 2 }

end Heat

namespace Projectile

noncomputable section

/-- Physical constants of the model, Go lines 10-16 (lab01 backend). -/
def g : ℝ := 9.81

/-- Air density `rho = 1.225`. -/
def rho : ℝ := 1.225

/-- Drag coefficient `Cd = 0.47`. -/
def Cd : ℝ := 0.47

/-- Body mass `mass = 1.0`. -/
def mass : ℝ := 1

/-- Cross-section area `area = 0.01`. -/
def area : ℝ := 0.01

/-- Mirrors Go `Point`: one recorded trajectory sample. -/
structure Point where
  x : ℝ
  y : ℝ
  v : ℝ
  t : ℝ

/-- Mirrors Go `SimulationRequest`: the four caller parameters. -/
structure SimulationRequest where
  v0 : ℝ
  angle : ℝ
  h0 : ℝ
  dt : ℝ

/-- The mutable state of Go `simulate`'s loop: position, velocity,
time, the accumulated `trajectory`, the running `maxHeight`, and the
step counter. -/
structure SimState where
  x : ℝ
  y : ℝ
  vx : ℝ
  vy : ℝ
  t : ℝ
  trajectory : List Point
  maxHeight : ℝ
  steps : ℕ

/-- Mirrors Go `SimulationResponse`. -/
structure SimulationResponse where
  trajectory : List Point
  range : ℝ
  maxHeight : ℝ
  finalVelocity : ℝ
  timeOfFlight : ℝ
  simulationSteps : ℕ

/-- One body of the `for y >= 0` loop, Go lines 55-89: record the
current point, update `maxHeight`, compute the drag force and the
accelerations (with the `v == 0` degenerate branch of lines 72-75;
the Go code first evaluates the `vx/v`, `vy/v` formulas and then
overwrites both accelerations, so only the branch value matters),
then the forward-Euler update — note the source updates `vx`, `vy`
first and uses the *new* velocities for `x += vx*dt`, `y += vy*dt` —
and finally `steps++`. -/
def stepOnce (dt : ℝ) (s : SimState) : SimState :=
  let v := Real.sqrt (s.vx * s.vx + s.vy * s.vy)
  let trajectory := s.trajectory ++ [{ x := s.x, y := s.y, v := v, t := s.t }]
  let maxHeight := if s.maxHeight < s.y then s.y else s.maxHeight
  let dragForce := 0.5 * rho * Cd * area * v * v
  let ax := if v = 0 then 0 else -(dragForce / mass) * (s.vx / v)
  let ay := if v = 0 then -g else -g - (dragForce / mass) * (s.vy / v)
  let vx := s.vx + ax * dt
  let vy := s.vy + ay * dt
  { x := s.x + vx * dt, y := s.y + vy * dt, vx := vx, vy := vy,
    t := s.t + dt, trajectory := trajectory, maxHeight := maxHeight,
    steps := s.steps + 1 }

/-- Go `for y >= 0 { ...; if steps > 1000000 { break } }` as a fuel
recursion.  Each iteration increments `steps` and the loop breaks as
soon as `steps > 1000000`, so the body can run at most `1000001` times;
`simLoop_canonical` below proves any fuel `≥ 1000001 - steps` gives the
same result, i.e. the fuel is an artefact, not a semantic change. -/
def simLoop (dt : ℝ) : ℕ → SimState → SimState
  | 0, s => s
  | fuel + 1, s =>
      if 0 ≤ s.y then
        let s1 := stepOnce dt s
        if 1000000 < s1.steps then s1 else simLoop dt fuel s1
      else s

/-- Go lines 42-52: `angleRad := Angle * π / 180`, `vx = V0*cos`,
`vy = V0*sin`, `x = 0`, `y = H0`, `t = 0`, empty trajectory,
`maxHeight := y`, `steps := 0`. -/
def initState (req : SimulationRequest) : SimState :=
  { x := 0, y := req.h0,
    vx := req.v0 * Real.cos (req.angle * Real.pi / 180),
    vy := req.v0 * Real.sin (req.angle * Real.pi / 180),
    t := 0, trajectory := [], maxHeight := req.h0, steps := 0 }

/-- The internal state when Go `simulate`'s loop exits. -/
def simulateState (req : SimulationRequest) : SimState :=
  simLoop req.dt 1000001 (initState req)

/-- Go lines 92-103: the response is read off the final state —
`Range = x`, `MaxHeight = maxHeight`, `FinalVelocity = √(vx²+vy²)`,
`TimeOfFlight = t`, `SimulationSteps = steps`. -/
def simulate (req : SimulationRequest) : SimulationResponse :=
  let s := simulateState req
  { trajectory := s.trajectory, range := s.x, maxHeight := s.maxHeight,
    finalVelocity := Real.sqrt (s.vx * s.vx + s.vy * s.vy),
    timeOfFlight := s.t, simulationSteps := s.steps }

/-- Concrete valid request (`v0 = 1 > 0`, `angle = 0 ∈ [0,90]`,
`h0 = 0`, `dt = 1 > 0`): the loop body runs once (`y₀ = 0 ≥ 0`),
records the point `(0, 0, 1, 0)`, and the Euler update drops `y` to
`-9.81`, ending the loop with `steps = 1`. -/
def exReq : SimulationRequest := { v0 := 1, angle := 0, h0 := 0, dt := 1 }

/-- The single point `exReq`'s run records. -/
def exPoint : Point := { x := 0, y := 0, v := 1, t := 0 }

/-- The state in which `exReq`'s loop exits. -/
def exState : SimState :=
  { x := 0.99712125, y := -9.81, vx := 0.99712125, vy := -9.81, t := 1,
    trajectory := [exPoint], maxHeight := 0, steps := 1 }

/-- Concrete valid request that exhausts the step cap: fired straight
up (`angle = 90`, so `vx = 0`) from `h0 = 10⁹` with `dt = 1`; the fall
speed stays in `[-60, 0]` (terminal velocity of the model is
`√(g·mass/(0.5·rho·Cd·area)) ≈ 58.4`), so `y` is still far above `0`
when the counter passes the cap. -/
def capReq : SimulationRequest := { v0 := 1, angle := 90, h0 := 10 ^ 9, dt := 1 }

/-- Concrete request with a negative launch height. -/
def negReq : SimulationRequest := { v0 := 1, angle := 0, h0 := -1, dt := 1 }

/-- A state at rest, for exercising the `v == 0` degenerate branch. -/
def zeroState : SimState :=
  { x := 0, y := 0, vx := 0, vy := 0, t := 0, trajectory := [],
    maxHeight := 0, steps := 0 }

end

end Projectile

/-! ### Structural lemmas about the heat engine -/

namespace Heat

lemma heatStep_length (p : SimulationParams) (r : ℚ) (T : List ℚ) :
    (heatStep p r T).length = T.length := by
  simp [heatStep]

lemma heatStep_getD (p : SimulationParams) (r : ℚ) (T : List ℚ) (i : ℕ)
    (hi : i < T.length) :
    (heatStep p r T).getD i 0 =
      if i = T.length - 1 then p.rightBoundary
      else if i = 0 then p.leftBoundary
      else T.getD i 0 + r * (T.getD (i + 1) 0 - 2 * T.getD i 0 + T.getD (i - 1) 0) := by
  simp [heatStep, List.getD_eq_getElem?_getD, List.getElem?_map, List.getElem?_range, hi]

lemma heatStep_left (p : SimulationParams) (r : ℚ) (T : List ℚ)
    (h2 : 2 ≤ T.length) :
    (heatStep p r T).getD 0 0 = p.leftBoundary := by
  rw [heatStep_getD p r T 0 (by omega), if_neg (by omega), if_pos rfl]

lemma heatStep_right (p : SimulationParams) (r : ℚ) (T : List ℚ)
    (h1 : 1 ≤ T.length) :
    (heatStep p r T).getD (T.length - 1) 0 = p.rightBoundary := by
  rw [heatStep_getD p r T (T.length - 1) (by omega), if_pos rfl]

lemma initialTemps_length (p : SimulationParams) :
    (initialTemps p).length = gridSize p := by
  simp [initialTemps]

lemma initialTemps_getD (p : SimulationParams) (i : ℕ) (hi : i < gridSize p) :
    (initialTemps p).getD i 0 =
      if i = gridSize p - 1 then p.rightBoundary
      else if i = 0 then p.leftBoundary
      else p.initialTemp := by
  unfold initialTemps
  rw [List.getD_eq_getElem?_getD]
  by_cases hlast : i = gridSize p - 1
  · subst hlast
    rw [if_pos rfl, List.getElem?_set_eq_of_lt _ (by simp; omega)]
    rfl
  · rw [if_neg hlast, List.getElem?_set_ne (by omega)]
    by_cases h0 : i = 0
    · subst h0
      rw [if_pos rfl, List.getElem?_set_eq_of_lt _ (by simp; omega)]
      rfl
    · rw [if_neg h0, List.getElem?_set_ne (by omega),
        List.getElem?_replicate_of_lt hi]
      rfl

lemma two_le_gridSize (p : SimulationParams)
    (hL : 0 < p.length) (hdx : 0 < p.spaceStep) : 2 ≤ gridSize p := by
  have hq : (0 : ℚ) < p.length / p.spaceStep := div_pos hL hdx
  have hc : (0 : ℤ) < ⌈p.length / p.spaceStep⌉ := Int.ceil_pos.mpr hq
  unfold gridSize
  omega

lemma iterate_heatStep_boundary (p : SimulationParams) (r : ℚ)
    (h2 : 2 ≤ gridSize p) (k : ℕ) :
    ((heatStep p r)^[k] (initialTemps p)).length = gridSize p ∧
    ((heatStep p r)^[k] (initialTemps p)).getD 0 0 = p.leftBoundary ∧
    ((heatStep p r)^[k] (initialTemps p)).getD (gridSize p - 1) 0 = p.rightBoundary := by
  induction k with
  | zero =>
      refine ⟨initialTemps_length p, ?_, ?_⟩
      · rw [Function.iterate_zero_apply, initialTemps_getD p 0 (by omega),
          if_neg (by omega), if_pos rfl]
      · rw [Function.iterate_zero_apply, initialTemps_getD p (gridSize p - 1) (by omega),
          if_pos rfl]
  | succ k ih =>
      obtain ⟨hlen, _, _⟩ := ih
      rw [Function.iterate_succ_apply']
      refine ⟨?_, ?_, ?_⟩
      · rw [heatStep_length, hlen]
      · exact heatStep_left p r _ (by rw [hlen]; exact h2)
      · have h := heatStep_right p r ((heatStep p r)^[k] (initialTemps p))
          (by rw [hlen]; omega)
        rwa [hlen] at h

lemma heatSteps_eq_map (p : SimulationParams) (r : ℚ) (steps : ℕ) :
    ∀ fuel step T time, heatSteps p r steps fuel step T time =
      ((List.range' step fuel).filter
          (fun s => decide (s % 10 = 0 ∨ s = steps - 1))).map
        (fun s => mkFrame p r ((heatStep p r)^[s + 1 - step] T)
          (time + ((s + 1 - step : ℕ) : ℚ) * p.timeStep)) := by
  intro fuel
  induction fuel with
  | zero => intro step T time; simp [heatSteps]
  | succ fuel ih =>
      intro step T time
      have hcongr :
          ((List.range' (step + 1) fuel).filter
              (fun s => decide (s % 10 = 0 ∨ s = steps - 1))).map
            (fun s => mkFrame p r ((heatStep p r)^[s + 1 - (step + 1)] (heatStep p r T))
              ((time + p.timeStep) + ((s + 1 - (step + 1) : ℕ) : ℚ) * p.timeStep)) =
          ((List.range' (step + 1) fuel).filter
              (fun s => decide (s % 10 = 0 ∨ s = steps - 1))).map
            (fun s => mkFrame p r ((heatStep p r)^[s + 1 - step] T)
              (time + ((s + 1 - step : ℕ) : ℚ) * p.timeStep)) := by
        refine List.map_congr_left ?_
        intro s hs
        have hs1 : step + 1 ≤ s :=
          (List.mem_range'_1.mp (List.mem_of_mem_filter hs)).1
        have e1 : s + 1 - (step + 1) = s - step := by omega
        have e2 : s + 1 - step = (s - step) + 1 := by omega
        have e3 : (heatStep p r)^[s + 1 - (step + 1)] (heatStep p r T) =
            (heatStep p r)^[s + 1 - step] T := by
          rw [e1, e2, Function.iterate_succ_apply]
        have e4 : (time + p.timeStep) + ((s + 1 - (step + 1) : ℕ) : ℚ) * p.timeStep =
            time + ((s + 1 - step : ℕ) : ℚ) * p.timeStep := by
          rw [e1, e2]
          push_cast
          ring
        rw [e3, e4]
      have hhead : mkFrame p r ((heatStep p r)^[step + 1 - step] T)
          (time + ((step + 1 - step : ℕ) : ℚ) * p.timeStep) =
          mkFrame p r (heatStep p r T) (time + p.timeStep) := by
        have e : step + 1 - step = 1 := by omega
        rw [e, Function.iterate_one]
        norm_num
      simp only [heatSteps]
      rw [ih (step + 1) (heatStep p r T) (time + p.timeStep), hcongr,
        List.range'_succ, List.filter_cons]
      by_cases hc : step % 10 = 0 ∨ step = steps - 1
      · rw [if_pos hc, if_pos (by simpa using hc), List.map_cons, hhead]
      · rw [if_neg hc, if_neg (by simpa using hc)]

lemma simulateHeatConduction_ok (p : SimulationParams) (hr : courant p ≤ 1 / 2) :
    simulateHeatConduction p =
      Except.ok (initFrame p :: (emittedSteps (numSteps p)).map (frameAt p)) := by
  simp only [simulateHeatConduction]
  rw [if_neg (not_lt.mpr hr)]
  congr 1
  rw [heatSteps_eq_map p (courant p) (numSteps p) (numSteps p) 0 (initialTemps p) 0]
  rw [emittedSteps, List.range_eq_range']
  congr 1
  refine List.map_congr_left ?_
  intro s _
  show mkFrame p (courant p) ((heatStep p (courant p))^[s + 1 - 0] (initialTemps p))
      ((0 : ℚ) + ((s + 1 - 0 : ℕ) : ℚ) * p.timeStep) = frameAt p s
  rw [Nat.sub_zero, zero_add]
  rfl

lemma simulateHeatConduction_ok_of_eq (p : SimulationParams)
    (frames : List SimulationResult)
    (h : simulateHeatConduction p = Except.ok frames) :
    courant p ≤ 1 / 2 ∧
      frames = initFrame p :: (emittedSteps (numSteps p)).map (frameAt p) := by
  by_cases hr : courant p ≤ 1 / 2
  · refine ⟨hr, ?_⟩
    rw [simulateHeatConduction_ok p hr] at h
    exact (Except.ok.injEq _ _).mp h.symm
  · exfalso
    simp only [simulateHeatConduction] at h
    rw [if_pos (not_le.mp hr)] at h
    exact Except.noConfusion h

end Heat

/-! ### Claim theorems about the heat engine -/

section HeatClaims

open Heat

/-- C1: For every `HeatParams` (the data model requires `length > 0`,
`spaceStep > 0`), if the Courant number `r = alpha·dt/dx² > 0.5` then
`simulateHeatConduction` produces zero frames, failing with an
instability error whose message names the computed ratio `r`; if
`r ≤ 0.5` it succeeds with at least one frame, whose first element is
the initial frame at `time = 0`. -/
theorem heat_stability_gate (p : Heat.SimulationParams)
    (hL : 0 < p.length) (hdx : 0 < p.spaceStep) :
    (1 / 2 < courant p →
      simulateHeatConduction p =
        Except.error ("unstable parameters: r = " ++ toString (courant p) ++ " > 0.5")) ∧
    (courant p ≤ 1 / 2 →
      ∃ frames, simulateHeatConduction p = Except.ok frames ∧
        1 ≤ frames.length ∧ frames.head? = some (initFrame p) ∧
        (initFrame p).time = 0) := by
  constructor
  · intro hr
    simp only [simulateHeatConduction]
    rw [if_pos hr]
  · intro hr
    refine ⟨initFrame p :: (emittedSteps (numSteps p)).map (frameAt p),
      simulateHeatConduction_ok p hr, ?_, rfl, rfl⟩
    simp

theorem heat_stability_gate_witness :
    (simulateHeatConduction pBad =
      Except.error ("unstable parameters: r = " ++ toString (courant pBad) ++ " > 0.5")) ∧
    (∃ frames, simulateHeatConduction pGood = Except.ok frames ∧
      1 ≤ frames.length ∧ frames.head? = some (initFrame pGood) ∧
      (initFrame pGood).time = 0) := by
  constructor
  · exact (heat_stability_gate pBad (by norm_num [pBad]) (by norm_num [pBad])).1
      (by norm_num [courant, pBad])
  · exact (heat_stability_gate pGood (by norm_num [pGood]) (by norm_num [pGood])).2
      (by norm_num [courant, pGood])

/-- C9: every frame the heat engine emits has `stable = true`: frames
are produced only in the `r ≤ 0.5` branch, and each frame's `Stable`
field stores the boolean value of the test `r ≤ 0.5`. -/
theorem heat_stable_always_true (p : Heat.SimulationParams)
    (hL : 0 < p.length) (hdx : 0 < p.spaceStep) :
    ∀ frames, simulateHeatConduction p = Except.ok frames →
      ∀ f ∈ frames, f.stable = true := by
  intro frames h f hf
  obtain ⟨hr, hframes⟩ := simulateHeatConduction_ok_of_eq p frames h
  subst hframes
  have hstable : decide (courant p ≤ 1 / 2) = true := decide_eq_true hr
  rcases List.mem_cons.mp hf with h1 | h2
  · subst h1; exact hstable
  · obtain ⟨s, _, rfl⟩ := List.mem_map.mp h2
    exact hstable

theorem heat_stable_always_true_witness :
    (initFrame pGood).stable = true :=
  heat_stable_always_true pGood (by norm_num [pGood]) (by norm_num [pGood])
    (initFrame pGood :: (emittedSteps (numSteps pGood)).map (frameAt pGood))
    (simulateHeatConduction_ok pGood (by norm_num [courant, pGood]))
    (initFrame pGood) (List.mem_cons_self _ _)

/-- C7: one update step of the heat engine sets each interior cell
`i ∈ [1, n-2]` of the next buffer to
`current[i] + r·(current[i+1] − 2·current[i] + current[i-1])`, resets
the two boundary cells to `leftBoundary` and `rightBoundary`, and the
loop then continues with the new buffer and with time advanced by
`timeStep` (last conjunct: the loop equation, in which the frame, when
sampled, also carries `time + timeStep`). -/
theorem heat_update_step (p : Heat.SimulationParams) (r : ℚ) (T : List ℚ)
    (h2 : 2 ≤ T.length) :
    (∀ i, 1 ≤ i → i ≤ T.length - 2 →
      (heatStep p r T).getD i 0 =
        T.getD i 0 + r * (T.getD (i + 1) 0 - 2 * T.getD i 0 + T.getD (i - 1) 0)) ∧
    (heatStep p r T).getD 0 0 = p.leftBoundary ∧
    (heatStep p r T).getD (T.length - 1) 0 = p.rightBoundary ∧
    (∀ steps fuel step time,
      heatSteps p r steps (fuel + 1) step T time =
        if step % 10 = 0 ∨ step = steps - 1 then
          mkFrame p r (heatStep p r T) (time + p.timeStep) ::
            heatSteps p r steps fuel (step + 1) (heatStep p r T) (time + p.timeStep)
        else
          heatSteps p r steps fuel (step + 1) (heatStep p r T) (time + p.timeStep)) := by
  refine ⟨?_, heatStep_left p r T h2, heatStep_right p r T (by omega), ?_⟩
  · intro i h1 hi
    rw [heatStep_getD p r T i (by omega), if_neg (by omega), if_neg (by omega)]
  · intro steps fuel step time
    simp only [heatSteps]

theorem heat_update_step_witness :
    (heatStep pGood (1 / 2) [100, 20, 0]).getD 1 0 =
      (20 : ℚ) + (1 / 2) * (0 - 2 * 20 + 100) ∧
    (heatStep pGood (1 / 2) [100, 20, 0]).getD 0 0 = pGood.leftBoundary ∧
    (heatStep pGood (1 / 2) [100, 20, 0]).getD 2 0 = pGood.rightBoundary := by
  have h := heat_update_step pGood (1 / 2) [100, 20, 0] (by norm_num)
  refine ⟨?_, h.2.1, h.2.2.1⟩
  have h1 := h.1 1 (by norm_num) (by norm_num)
  rw [h1]
  norm_num

end HeatClaims

section HeatClaims2

open Heat

/-- C2: for every `HeatParams` with `length > 0`, `dt > 0`, `dx > 0`,
`alpha > 0` and `r ≤ 0.5`, every frame emitted by the heat engine has a
temperature list of length `n = ⌈length/dx⌉ + 1` whose element `0`
equals `leftBoundary` and whose element `n-1` equals `rightBoundary`,
exactly, in every frame including the initial one. -/
theorem heat_boundary_invariant (p : Heat.SimulationParams)
    (hL : 0 < p.length) (hdt : 0 < p.timeStep) (hdx : 0 < p.spaceStep)
    (ha : 0 < p.alpha) (hr : courant p ≤ 1 / 2) :
    ∀ frames, simulateHeatConduction p = Except.ok frames →
      ∀ f ∈ frames,
        f.temperatures.length = gridSize p ∧
        f.temperatures.getD 0 0 = p.leftBoundary ∧
        f.temperatures.getD (gridSize p - 1) 0 = p.rightBoundary := by
  intro frames h f hf
  have h2 := two_le_gridSize p hL hdx
  obtain ⟨-, hframes⟩ := simulateHeatConduction_ok_of_eq p frames h
  subst hframes
  rcases List.mem_cons.mp hf with h1 | hm
  · subst h1
    refine ⟨initialTemps_length p, ?_, ?_⟩
    · show (initialTemps p).getD 0 0 = p.leftBoundary
      rw [initialTemps_getD p 0 (by omega), if_neg (by omega), if_pos rfl]
    · show (initialTemps p).getD (gridSize p - 1) 0 = p.rightBoundary
      rw [initialTemps_getD p (gridSize p - 1) (by omega), if_pos rfl]
  · obtain ⟨s, -, rfl⟩ := List.mem_map.mp hm
    exact iterate_heatStep_boundary p (courant p) h2 (s + 1)

theorem heat_boundary_invariant_witness :
    (initFrame pGood).temperatures.length = gridSize pGood ∧
    (initFrame pGood).temperatures.getD 0 0 = pGood.leftBoundary ∧
    (initFrame pGood).temperatures.getD (gridSize pGood - 1) 0 =
      pGood.rightBoundary :=
  heat_boundary_invariant pGood (by norm_num [pGood]) (by norm_num [pGood])
    (by norm_num [pGood]) (by norm_num [pGood]) (by norm_num [courant, pGood])
    (initFrame pGood :: (emittedSteps (numSteps pGood)).map (frameAt pGood))
    (simulateHeatConduction_ok pGood (by norm_num [courant, pGood]))
    (initFrame pGood) (List.mem_cons_self _ _)

/-- C6: for every `HeatParams` with `r ≤ 0.5` (and positive `totalTime`,
`timeStep`), the heat engine performs exactly `⌊totalTime/dt⌋` update
steps (`numSteps`, the fuel of the loop; the frame emitted at loop index
`s` carries the buffer after `s+1` scheme applications, so the final
frame, at index `numSteps - 1`, carries the buffer after `numSteps`
applications), and beyond the initial frame a frame is emitted exactly
at the loop indices `s < numSteps` with `s % 10 = 0` — i.e. after every
10th step, counting from the first — or `s = numSteps - 1`, the final
step, and in no other case. -/
theorem heat_step_count_and_sampling (p : Heat.SimulationParams)
    (hdt : 0 < p.timeStep) (hT : 0 < p.totalTime) (hr : courant p ≤ 1 / 2) :
    ((numSteps p : ℤ) = ⌊p.totalTime / p.timeStep⌋) ∧
    simulateHeatConduction p =
      Except.ok (initFrame p :: (emittedSteps (numSteps p)).map (frameAt p)) ∧
    (∀ s, s ∈ emittedSteps (numSteps p) ↔
      s < numSteps p ∧ (s % 10 = 0 ∨ s = numSteps p - 1)) ∧
    (∀ s, (frameAt p s).time = ((s + 1 : ℕ) : ℚ) * p.timeStep ∧
      (frameAt p s).temperatures =
        (heatStep p (courant p))^[s + 1] (initialTemps p)) := by
  refine ⟨?_, simulateHeatConduction_ok p hr, ?_, fun s => ⟨rfl, rfl⟩⟩
  · have hq : (0 : ℚ) ≤ p.totalTime / p.timeStep := le_of_lt (div_pos hT hdt)
    have hfl : (0 : ℤ) ≤ ⌊p.totalTime / p.timeStep⌋ := Int.floor_nonneg.mpr hq
    unfold numSteps ratTrunc
    rw [if_neg (not_lt.mpr hq)]
    omega
  · intro s
    simp [emittedSteps, List.mem_filter, List.mem_range, and_comm]

theorem heat_step_count_and_sampling_witness :
    ((numSteps pGood : ℤ) = ⌊pGood.totalTime / pGood.timeStep⌋) ∧
    simulateHeatConduction pGood =
      Except.ok (initFrame pGood :: (emittedSteps (numSteps pGood)).map (frameAt pGood)) ∧
    (∀ s, s ∈ emittedSteps (numSteps pGood) ↔
      s < numSteps pGood ∧ (s % 10 = 0 ∨ s = numSteps pGood - 1)) ∧
    (∀ s, (frameAt pGood s).time = ((s + 1 : ℕ) : ℚ) * pGood.timeStep ∧
      (frameAt pGood s).temperatures =
        (heatStep pGood (courant pGood))^[s + 1] (initialTemps pGood)) :=
  heat_step_count_and_sampling pGood (by norm_num [pGood]) (by norm_num [pGood])
    (by norm_num [courant, pGood])

end HeatClaims2

/-! ### Structural lemmas about the projectile engine -/

namespace Projectile

lemma simLoop_zero (dt : ℝ) (s : SimState) : simLoop dt 0 s = s := rfl

lemma simLoop_succ (dt : ℝ) (fuel : ℕ) (s : SimState) :
    simLoop dt (fuel + 1) s =
      if 0 ≤ s.y then
        (if 1000000 < (stepOnce dt s).steps then stepOnce dt s
         else simLoop dt fuel (stepOnce dt s))
      else s := rfl

lemma stepOnce_trajectory (dt : ℝ) (s : SimState) :
    (stepOnce dt s).trajectory = s.trajectory ++
      [{ x := s.x, y := s.y, v := Real.sqrt (s.vx * s.vx + s.vy * s.vy),
         t := s.t }] := rfl

lemma stepOnce_steps (dt : ℝ) (s : SimState) :
    (stepOnce dt s).steps = s.steps + 1 := rfl

lemma stepOnce_t (dt : ℝ) (s : SimState) :
    (stepOnce dt s).t = s.t + dt := rfl

lemma stepOnce_maxHeight (dt : ℝ) (s : SimState) :
    (stepOnce dt s).maxHeight =
      if s.maxHeight < s.y then s.y else s.maxHeight := rfl

lemma stepOnce_vx (dt : ℝ) (s : SimState) :
    (stepOnce dt s).vx = s.vx +
      (if Real.sqrt (s.vx * s.vx + s.vy * s.vy) = 0 then 0
       else -(0.5 * rho * Cd * area * Real.sqrt (s.vx * s.vx + s.vy * s.vy) *
          Real.sqrt (s.vx * s.vx + s.vy * s.vy) / mass) *
          (s.vx / Real.sqrt (s.vx * s.vx + s.vy * s.vy))) * dt := rfl

lemma stepOnce_vy (dt : ℝ) (s : SimState) :
    (stepOnce dt s).vy = s.vy +
      (if Real.sqrt (s.vx * s.vx + s.vy * s.vy) = 0 then -g
       else -g - (0.5 * rho * Cd * area * Real.sqrt (s.vx * s.vx + s.vy * s.vy) *
          Real.sqrt (s.vx * s.vx + s.vy * s.vy) / mass) *
          (s.vy / Real.sqrt (s.vx * s.vx + s.vy * s.vy))) * dt := rfl

lemma stepOnce_x (dt : ℝ) (s : SimState) :
    (stepOnce dt s).x = s.x + (stepOnce dt s).vx * dt := rfl

lemma stepOnce_y (dt : ℝ) (s : SimState) :
    (stepOnce dt s).y = s.y + (stepOnce dt s).vy * dt := rfl

end Projectile

/-! ### Claim theorems about the projectile engine, part 1 -/

section ProjectileClaims1

open Projectile

/-- C8: in every integration step where the current speed
`v = √(vx²+vy²)` is `0`, the applied accelerations are `ax = 0` and
`ay = -g` (the division by `v` in the drag terms never determines the
update), so the step leaves `vx` unchanged and updates
`vy` to `vy - g·dt`. -/
theorem zero_velocity_step (dt : ℝ) (s : Projectile.SimState)
    (hv : Real.sqrt (s.vx * s.vx + s.vy * s.vy) = 0) :
    (stepOnce dt s).vx = s.vx ∧ (stepOnce dt s).vy = s.vy - g * dt := by
  constructor
  · rw [stepOnce_vx, if_pos hv]
    ring
  · rw [stepOnce_vy, if_pos hv]
    ring

theorem zero_velocity_step_witness :
    (stepOnce 1 zeroState).vx = zeroState.vx ∧
    (stepOnce 1 zeroState).vy = zeroState.vy - g * 1 :=
  zero_velocity_step 1 zeroState (by
    have : zeroState.vx * zeroState.vx + zeroState.vy * zeroState.vy = 0 := by
      norm_num [zeroState]
    rw [this, Real.sqrt_zero])

/-- C10: for every request with `h0 < 0` (which the interface
validation does not reject) and `v0 > 0`, the loop condition `y ≥ 0`
fails immediately: `simulate` performs zero integration steps and
returns an empty trajectory with `stepCount = 0`, `range = 0`,
`timeOfFlight = 0`, `maxHeight = h0` and `finalVelocity = v0`. -/
theorem negative_h0_result (req : Projectile.SimulationRequest)
    (hh : req.h0 < 0) (hv : 0 < req.v0) :
    (simulate req).trajectory = [] ∧
    (simulate req).simulationSteps = 0 ∧
    (simulate req).range = 0 ∧
    (simulate req).timeOfFlight = 0 ∧
    (simulate req).maxHeight = req.h0 ∧
    (simulate req).finalVelocity = req.v0 := by
  have hstate : simulateState req = initState req := by
    rw [simulateState, show (1000001 : ℕ) = 1000000 + 1 from rfl, simLoop_succ,
      if_neg (by show ¬ (0 : ℝ) ≤ req.h0; linarith)]
  have hsq : (initState req).vx * (initState req).vx +
      (initState req).vy * (initState req).vy = req.v0 ^ 2 := by
    show req.v0 * Real.cos (req.angle * Real.pi / 180) *
        (req.v0 * Real.cos (req.angle * Real.pi / 180)) +
      req.v0 * Real.sin (req.angle * Real.pi / 180) *
        (req.v0 * Real.sin (req.angle * Real.pi / 180)) = req.v0 ^ 2
    have h := Real.sin_sq_add_cos_sq (req.angle * Real.pi / 180)
    nlinarith [h]
  refine ⟨?_, ?_, ?_, ?_, ?_, ?_⟩
  · show (simulateState req).trajectory = []
    rw [hstate]; rfl
  · show (simulateState req).steps = 0
    rw [hstate]; rfl
  · show (simulateState req).x = 0
    rw [hstate]; rfl
  · show (simulateState req).t = 0
    rw [hstate]; rfl
  · show (simulateState req).maxHeight = req.h0
    rw [hstate]; rfl
  · show Real.sqrt ((simulateState req).vx * (simulateState req).vx +
      (simulateState req).vy * (simulateState req).vy) = req.v0
    rw [hstate, hsq, Real.sqrt_sq hv.le]

theorem negative_h0_result_witness :
    (simulate negReq).trajectory = [] ∧
    (simulate negReq).simulationSteps = 0 ∧
    (simulate negReq).range = 0 ∧
    (simulate negReq).timeOfFlight = 0 ∧
    (simulate negReq).maxHeight = negReq.h0 ∧
    (simulate negReq).finalVelocity = negReq.v0 :=
  negative_h0_result negReq (by norm_num [negReq]) (by norm_num [negReq])

end ProjectileClaims1

namespace Projectile

lemma simLoop_traj_nonneg (dt : ℝ) : ∀ fuel (s : SimState),
    (∀ pt ∈ s.trajectory, 0 ≤ pt.y) →
    ∀ pt ∈ (simLoop dt fuel s).trajectory, 0 ≤ pt.y := by
  intro fuel
  induction fuel with
  | zero => intro s h; exact h
  | succ fuel ih =>
      intro s h
      rw [simLoop_succ]
      by_cases hy : 0 ≤ s.y
      · rw [if_pos hy]
        have hstep : ∀ pt ∈ (stepOnce dt s).trajectory, 0 ≤ pt.y := by
          intro pt hpt
          rw [stepOnce_trajectory] at hpt
          rcases List.mem_append.mp hpt with h1 | h2
          · exact h pt h1
          · rw [List.mem_singleton.mp h2]
            exact hy
        by_cases hcap : 1000000 < (stepOnce dt s).steps
        · rw [if_pos hcap]; exact hstep
        · rw [if_neg hcap]; exact ih _ hstep
      · rw [if_neg hy]; exact h

lemma simLoop_exit (dt : ℝ) : ∀ fuel (s : SimState), s.steps ≤ 1000000 →
    1000001 ≤ s.steps + fuel →
    (simLoop dt fuel s).y < 0 ∨ (simLoop dt fuel s).steps = 1000001 := by
  intro fuel
  induction fuel with
  | zero =>
      intro s h1 h2
      exact absurd h2 (by omega)
  | succ fuel ih =>
      intro s h1 h2
      rw [simLoop_succ]
      by_cases hy : 0 ≤ s.y
      · rw [if_pos hy]
        by_cases hcap : 1000000 < (stepOnce dt s).steps
        · rw [if_pos hcap]
          right
          rw [stepOnce_steps] at hcap ⊢
          omega
        · rw [if_neg hcap]
          rw [stepOnce_steps] at hcap
          exact ih (stepOnce dt s) (by rw [stepOnce_steps]; omega)
            (by rw [stepOnce_steps]; omega)
      · rw [if_neg hy]
        exact Or.inl (not_le.mp hy)

lemma stepOnce_max_inv (dt : ℝ) (s : SimState)
    (h1 : ∀ pt ∈ s.trajectory, pt.y ≤ s.maxHeight)
    (h2 : s.trajectory ≠ [] → s.maxHeight ∈ s.trajectory.map Point.y)
    (h3 : s.trajectory = [] → s.maxHeight = s.y) :
    (∀ pt ∈ (stepOnce dt s).trajectory, pt.y ≤ (stepOnce dt s).maxHeight) ∧
    ((stepOnce dt s).trajectory ≠ [] →
      (stepOnce dt s).maxHeight ∈ (stepOnce dt s).trajectory.map Point.y) ∧
    ((stepOnce dt s).trajectory = [] →
      (stepOnce dt s).maxHeight = (stepOnce dt s).y) := by
  rw [stepOnce_trajectory, stepOnce_maxHeight]
  have hmono : s.maxHeight ≤ if s.maxHeight < s.y then s.y else s.maxHeight := by
    by_cases hc : s.maxHeight < s.y
    · rw [if_pos hc]; exact hc.le
    · rw [if_neg hc]
  refine ⟨?_, ?_, ?_⟩
  · intro pt hpt
    rcases List.mem_append.mp hpt with ha | hb
    · exact le_trans (h1 pt ha) hmono
    · rw [List.mem_singleton.mp hb]
      show s.y ≤ _
      by_cases hc : s.maxHeight < s.y
      · rw [if_pos hc]
      · rw [if_neg hc]; exact not_lt.mp hc
  · intro _
    by_cases hc : s.maxHeight < s.y
    · rw [if_pos hc, List.map_append, List.mem_append]
      right
      simp
    · rw [if_neg hc]
      rcases eq_or_ne s.trajectory [] with hnil | hne
      · rw [List.map_append, List.mem_append]
        right
        rw [h3 hnil]
        simp
      · rw [List.map_append, List.mem_append]
        exact Or.inl (h2 hne)
  · intro hcontra
    exact absurd hcontra (by simp)

lemma simLoop_max_inv (dt : ℝ) : ∀ fuel (s : SimState),
    (∀ pt ∈ s.trajectory, pt.y ≤ s.maxHeight) →
    (s.trajectory ≠ [] → s.maxHeight ∈ s.trajectory.map Point.y) →
    (s.trajectory = [] → s.maxHeight = s.y) →
    (∀ pt ∈ (simLoop dt fuel s).trajectory, pt.y ≤ (simLoop dt fuel s).maxHeight) ∧
    ((simLoop dt fuel s).trajectory ≠ [] →
      (simLoop dt fuel s).maxHeight ∈ (simLoop dt fuel s).trajectory.map Point.y) ∧
    ((simLoop dt fuel s).trajectory = [] →
      (simLoop dt fuel s).maxHeight = (simLoop dt fuel s).y) := by
  intro fuel
  induction fuel with
  | zero => intro s h1 h2 h3; exact ⟨h1, h2, h3⟩
  | succ fuel ih =>
      intro s h1 h2 h3
      rw [simLoop_succ]
      by_cases hy : 0 ≤ s.y
      · rw [if_pos hy]
        obtain ⟨h1', h2', h3'⟩ := stepOnce_max_inv dt s h1 h2 h3
        by_cases hcap : 1000000 < (stepOnce dt s).steps
        · rw [if_pos hcap]; exact ⟨h1', h2', h3'⟩
        · rw [if_neg hcap]; exact ih _ h1' h2' h3'
      · rw [if_neg hy]; exact ⟨h1, h2, h3⟩

end Projectile

namespace Projectile

lemma initState_exReq : initState exReq =
    { x := 0, y := 0, vx := 1, vy := 0, t := 0, trajectory := [],
      maxHeight := 0, steps := 0 } := by
  simp only [initState, exReq]
  norm_num [Real.cos_zero, Real.sin_zero]

lemma stepOnce_exStart :
    stepOnce 1 ({ x := 0, y := 0, vx := 1, vy := 0, t := 0, trajectory := [],
                  maxHeight := 0, steps := 0 } : SimState) = exState := by
  simp only [stepOnce, exState, exPoint, g, rho, Cd, mass, area]
  norm_num [Real.sqrt_one]

lemma simulateState_exReq : simulateState exReq = exState := by
  rw [simulateState, show exReq.dt = (1 : ℝ) from rfl, initState_exReq,
    show (1000001 : ℕ) = 1000000 + 1 from rfl, simLoop_succ,
    if_pos (by norm_num), stepOnce_exStart,
    if_neg (by norm_num [exState]),
    show (1000000 : ℕ) = 999999 + 1 from rfl, simLoop_succ,
    if_neg (by norm_num [exState])]

end Projectile

/-! ### Claim theorems about the projectile engine, part 2 -/

section ProjectileClaims2

open Projectile

/-- C4 (amended): for every valid request (`v0 > 0`, `angle ∈ [0, 90]`,
`dt > 0`), when the loop exits either the *internal state* has `y < 0`
or the step cap was hit (internal counter `1000001`); every *recorded
trajectory point*, the last one included, has `y ≥ 0`, because points
are recorded at loop entry under the `y ≥ 0` guard — so it is the
unrecorded final state, not the last trajectory point, that has `y < 0`. -/
theorem termination_condition (req : Projectile.SimulationRequest)
    (hv : 0 < req.v0) (ha1 : 0 ≤ req.angle) (ha2 : req.angle ≤ 90)
    (hdt : 0 < req.dt) :
    (∀ pt ∈ (simulate req).trajectory, 0 ≤ pt.y) ∧
    ((simulateState req).y < 0 ∨ (simulateState req).steps = 1000001) := by
  constructor
  · intro pt hpt
    have hpt' : pt ∈ (simLoop req.dt 1000001 (initState req)).trajectory := hpt
    refine simLoop_traj_nonneg req.dt 1000001 (initState req) ?_ pt hpt'
    intro q hq
    exact absurd hq (by simp [initState])
  · exact simLoop_exit req.dt 1000001 (initState req)
      (by norm_num [initState]) (by norm_num [initState])

theorem termination_condition_witness :
    (∀ pt ∈ (simulate exReq).trajectory, 0 ≤ pt.y) ∧
    ((simulateState exReq).y < 0 ∨ (simulateState exReq).steps = 1000001) :=
  termination_condition exReq (by norm_num [exReq]) (by norm_num [exReq])
    (by norm_num [exReq]) (by norm_num [exReq])

/-- C4 counterexample: at the valid request `exReq`
(`v0 = 1, angle = 0, h0 = 0, dt = 1`) the step cap is not hit
(`stepCount = 1`), yet the last trajectory point is `(0, 0, 1, 0)`,
whose `y = 0` is *not* `< 0` — the claim as stated fails. -/
theorem termination_condition_counterexample :
    0 < exReq.v0 ∧ 0 ≤ exReq.angle ∧ exReq.angle ≤ 90 ∧ 0 < exReq.dt ∧
    (simulate exReq).simulationSteps ≤ 1000000 ∧
    (simulate exReq).trajectory.getLast? = some exPoint ∧
    ¬ (exPoint.y < 0) := by
  refine ⟨by norm_num [exReq], by norm_num [exReq], by norm_num [exReq],
    by norm_num [exReq], ?_, ?_, by norm_num [exPoint]⟩
  · show (simulateState exReq).steps ≤ 1000000
    rw [simulateState_exReq]
    norm_num [exState]
  · show (simulateState exReq).trajectory.getLast? = some exPoint
    rw [simulateState_exReq]
    rfl

/-- C5 (amended): for every valid request with a non-empty trajectory,
`maxHeight` does equal the maximum `y` over the trajectory points, but
`range` and `finalVelocity` (and `timeOfFlight`) are taken from the
internal state *after* the final Euler update — one update beyond the
last recorded trajectory point — not from the last trajectory point. -/
theorem result_fields (req : Projectile.SimulationRequest)
    (hv : 0 < req.v0) (ha1 : 0 ≤ req.angle) (ha2 : req.angle ≤ 90)
    (hdt : 0 < req.dt) (hne : (simulate req).trajectory ≠ []) :
    (simulate req).range = (simulateState req).x ∧
    (simulate req).timeOfFlight = (simulateState req).t ∧
    (simulate req).finalVelocity =
      Real.sqrt ((simulateState req).vx * (simulateState req).vx +
        (simulateState req).vy * (simulateState req).vy) ∧
    (simulate req).maxHeight ∈ (simulate req).trajectory.map Point.y ∧
    (∀ pt ∈ (simulate req).trajectory, pt.y ≤ (simulate req).maxHeight) := by
  have h := simLoop_max_inv req.dt 1000001 (initState req)
    (by intro pt hpt; exact absurd hpt (by simp [initState]))
    (by intro hc; exact absurd rfl hc)
    (fun _ => rfl)
  have hne' : (simLoop req.dt 1000001 (initState req)).trajectory ≠ [] := hne
  exact ⟨rfl, rfl, rfl, h.2.1 hne', fun pt hpt => h.1 pt hpt⟩

theorem result_fields_witness :
    (simulate exReq).range = (simulateState exReq).x ∧
    (simulate exReq).timeOfFlight = (simulateState exReq).t ∧
    (simulate exReq).finalVelocity =
      Real.sqrt ((simulateState exReq).vx * (simulateState exReq).vx +
        (simulateState exReq).vy * (simulateState exReq).vy) ∧
    (simulate exReq).maxHeight ∈ (simulate exReq).trajectory.map Point.y ∧
    (∀ pt ∈ (simulate exReq).trajectory, pt.y ≤ (simulate exReq).maxHeight) :=
  result_fields exReq (by norm_num [exReq]) (by norm_num [exReq])
    (by norm_num [exReq]) (by norm_num [exReq])
    (by rw [show (simulate exReq).trajectory = exState.trajectory from
        congrArg SimState.trajectory simulateState_exReq]; simp [exState])

/-- C5 counterexample: at `exReq` the trajectory is the single point
`(x = 0, y = 0, v = 1, t = 0)`, yet `range = 0.99712125 ≠ 0` and
`finalVelocity = √(0.99712125² + 9.81²) > 1`, so neither equals the
last trajectory point's `x` resp. `v` — the claim as stated fails. -/
theorem result_fields_counterexample :
    0 < exReq.v0 ∧ 0 ≤ exReq.angle ∧ exReq.angle ≤ 90 ∧ 0 < exReq.dt ∧
    (simulate exReq).trajectory.getLast? = some exPoint ∧
    exPoint.x = 0 ∧ (simulate exReq).range = 0.99712125 ∧
    (simulate exReq).range ≠ exPoint.x ∧
    exPoint.v = 1 ∧ (simulate exReq).finalVelocity ≠ exPoint.v := by
  have hrange : (simulate exReq).range = 0.99712125 := by
    show (simulateState exReq).x = _
    rw [simulateState_exReq]
    rfl
  have hfv : (simulate exReq).finalVelocity =
      Real.sqrt (0.99712125 * 0.99712125 + 9.81 * 9.81) := by
    show Real.sqrt ((simulateState exReq).vx * (simulateState exReq).vx +
      (simulateState exReq).vy * (simulateState exReq).vy) = _
    rw [simulateState_exReq]
    norm_num [exState]
  have hlt : (1 : ℝ) < Real.sqrt (0.99712125 * 0.99712125 + 9.81 * 9.81) := by
    rw [show (1 : ℝ) = Real.sqrt 1 from (Real.sqrt_one).symm]
    apply Real.sqrt_lt_sqrt (by norm_num)
    norm_num
  refine ⟨by norm_num [exReq], by norm_num [exReq], by norm_num [exReq],
    by norm_num [exReq], ?_, rfl, hrange, ?_, rfl, ?_⟩
  · show (simulateState exReq).trajectory.getLast? = some exPoint
    rw [simulateState_exReq]
    rfl
  · rw [hrange]
    norm_num [exPoint]
  · rw [hfv]
    show Real.sqrt (0.99712125 * 0.99712125 + 9.81 * 9.81) ≠ 1
    rw [show (1 : ℝ) = Real.sqrt 1 from (Real.sqrt_one).symm] at hlt ⊢
    exact ne_of_gt hlt

end ProjectileClaims2

namespace Projectile

lemma simLoop_canonical (dt : ℝ) : ∀ fuel (s : SimState), s.steps ≤ 1000000 →
    1000001 - s.steps ≤ fuel →
    simLoop dt fuel s = simLoop dt (1000001 - s.steps) s := by
  intro fuel
  induction fuel with
  | zero =>
      intro s h1 h2
      exact absurd h2 (by omega)
  | succ fuel ih =>
      intro s h1 h2
      have hms : 1000001 - s.steps = (1000000 - s.steps) + 1 := by omega
      rw [hms, simLoop_succ, simLoop_succ]
      by_cases hy : 0 ≤ s.y
      · rw [if_pos hy, if_pos hy]
        by_cases hcap : 1000000 < (stepOnce dt s).steps
        · rw [if_pos hcap, if_pos hcap]
        · rw [if_neg hcap, if_neg hcap]
          rw [stepOnce_steps] at hcap
          have h1' : (stepOnce dt s).steps ≤ 1000000 := by
            rw [stepOnce_steps]; omega
          rw [ih (stepOnce dt s) h1' (by rw [stepOnce_steps]; omega)]
          congr 1
          rw [stepOnce_steps]
          omega
      · rw [if_neg hy, if_neg hy]

lemma simLoop_steps_le (dt : ℝ) : ∀ fuel (s : SimState),
    (simLoop dt fuel s).steps ≤ s.steps + fuel := by
  intro fuel
  induction fuel with
  | zero => intro s; exact Nat.le_add_right _ _
  | succ fuel ih =>
      intro s
      rw [simLoop_succ]
      by_cases hy : 0 ≤ s.y
      · rw [if_pos hy]
        by_cases hcap : 1000000 < (stepOnce dt s).steps
        · rw [if_pos hcap, stepOnce_steps]
          omega
        · rw [if_neg hcap]
          have := ih (stepOnce dt s)
          rw [stepOnce_steps] at this
          omega
      · rw [if_neg hy]
        omega

end Projectile

/-! ### Claim theorems about the projectile engine, part 3 -/

section ProjectileClaims3

open Projectile

/-- C3 (amended): for every request with `dt > 0` the simulation
terminates — the fuelled loop is a fixed point: any fuel `≥ 1000001`
returns the very result `simulate` returns, so the `for` loop needs at
most `1000001` iterations — and the returned `stepCount` never exceeds
`1,000,001` (not `1,000,000`: the source increments `steps` *before*
testing `steps > 1000000`, so the loop stops one step after the counter
reaches `1,000,000`, and the accumulated trajectory is returned with no
distinct error). -/
theorem step_cap (req : Projectile.SimulationRequest) (hdt : 0 < req.dt) :
    (∀ fuel, 1000001 ≤ fuel →
      simLoop req.dt fuel (initState req) = simulateState req) ∧
    (simulate req).simulationSteps ≤ 1000001 := by
  have h0 : (initState req).steps = 0 := rfl
  constructor
  · intro fuel hf
    rw [simulateState]
    rw [simLoop_canonical req.dt fuel (initState req) (by omega) (by omega),
      simLoop_canonical req.dt 1000001 (initState req) (by omega) (by omega)]
  · show (simulateState req).steps ≤ 1000001
    have h := simLoop_steps_le req.dt 1000001 (initState req)
    rw [h0] at h
    exact h

theorem step_cap_witness :
    simLoop exReq.dt 1000002 (initState exReq) = simulateState exReq ∧
    (simulate exReq).simulationSteps ≤ 1000001 := by
  have h := step_cap exReq (by norm_num [exReq])
  exact ⟨h.1 1000002 (by norm_num), h.2⟩

end ProjectileClaims3

namespace Projectile

lemma capStep (s : SimState) (hvx : s.vx = 0) (h1 : -60 ≤ s.vy) (h2 : s.vy ≤ -8) :
    (stepOnce 1 s).vx = 0 ∧ -60 ≤ (stepOnce 1 s).vy ∧ (stepOnce 1 s).vy ≤ -8 ∧
    s.y - 60 ≤ (stepOnce 1 s).y ∧ (stepOnce 1 s).steps = s.steps + 1 := by
  have hvy0 : s.vy < 0 := by linarith
  have hv : Real.sqrt (s.vx * s.vx + s.vy * s.vy) = -s.vy := by
    rw [hvx, show (0 : ℝ) * 0 + s.vy * s.vy = (-s.vy) ^ 2 by ring]
    exact Real.sqrt_sq (by linarith)
  have hvne : Real.sqrt (s.vx * s.vx + s.vy * s.vy) ≠ 0 := by
    rw [hv]; linarith
  have hax : (stepOnce 1 s).vx = 0 := by
    rw [stepOnce_vx, if_neg hvne, hvx]
    simp
  have hdiv : s.vy / -s.vy = -1 := by
    rw [div_neg, div_self hvy0.ne]
  have hvyval : (stepOnce 1 s).vy = s.vy - 9.81 + 0.00287875 * (s.vy * s.vy) := by
    rw [stepOnce_vy, if_neg hvne, hv, hdiv, g, rho, Cd, mass, area]
    ring
  have hlow : -60 ≤ (stepOnce 1 s).vy := by
    rw [hvyval]
    nlinarith [sq_nonneg (s.vy + 60)]
  refine ⟨hax, hlow, ?_, ?_, stepOnce_steps 1 s⟩
  · rw [hvyval]
    nlinarith [mul_nonneg (by linarith : (0 : ℝ) ≤ s.vy + 60)
      (by linarith : (0 : ℝ) ≤ -(s.vy + 8))]
  · rw [stepOnce_y, mul_one]
    linarith [hlow]

lemma capRun : ∀ fuel (s : SimState), s.vx = 0 → -60 ≤ s.vy → s.vy ≤ -8 →
    (10 ^ 9 : ℝ) - 60 * s.steps ≤ s.y → s.steps + fuel = 1000001 →
    (simLoop 1 fuel s).steps = 1000001 := by
  intro fuel
  induction fuel with
  | zero =>
      intro s _ _ _ _ h5
      rw [simLoop_zero]
      omega
  | succ fuel ih =>
      intro s hvx h1 h2 hy hcount
      have hsle : s.steps ≤ 1000000 := by omega
      have hcast : (s.steps : ℝ) ≤ 1000000 := by exact_mod_cast hsle
      have hy0 : (0 : ℝ) ≤ s.y := by linarith
      obtain ⟨hvx', h1', h2', hy', hst'⟩ := capStep s hvx h1 h2
      rw [simLoop_succ, if_pos hy0]
      by_cases hcap : 1000000 < (stepOnce 1 s).steps
      · rw [if_pos hcap, hst']
        rw [hst'] at hcap
        omega
      · rw [if_neg hcap]
        apply ih (stepOnce 1 s) hvx' h1' h2' ?_ (by rw [hst']; omega)
        rw [hst']
        push_cast
        linarith [hy, hy']

lemma initState_capReq : initState capReq =
    { x := 0, y := 10 ^ 9, vx := 0, vy := 1, t := 0, trajectory := [],
      maxHeight := 10 ^ 9, steps := 0 } := by
  simp only [initState, capReq]
  rw [show (90 : ℝ) * Real.pi / 180 = Real.pi / 2 by ring,
    Real.cos_pi_div_two, Real.sin_pi_div_two]
  norm_num

lemma capReq_step : stepOnce 1 ({ x := 0, y := 10 ^ 9, vx := 0, vy := 1, t := 0,
                                  trajectory := [], maxHeight := 10 ^ 9,
                                  steps := 0 } : SimState) =
    { x := 0, y := 10 ^ 9 - 8.81287875, vx := 0, vy := -8.81287875, t := 1,
      trajectory := [{ x := 0, y := 10 ^ 9, v := 1, t := 0 }],
      maxHeight := 10 ^ 9, steps := 1 } := by
  simp only [stepOnce, g, rho, Cd, mass, area]
  norm_num [Real.sqrt_one]

end Projectile

section ProjectileClaims4

open Projectile

/-- C3 counterexample: the valid request `capReq`
(`v0 = 1, angle = 90, h0 = 10⁹, dt = 1`) keeps `y ≥ 0` past the cap, so
the loop runs until the counter, incremented *before* the
`steps > 1000000` test, reaches `1,000,001 > 1,000,000` — the returned
`stepCount` exceeds `1,000,000`, contrary to the claim as stated. -/
theorem step_cap_counterexample :
    0 < capReq.v0 ∧ 0 ≤ capReq.angle ∧ capReq.angle ≤ 90 ∧ 0 < capReq.dt ∧
    1000000 < (simulate capReq).simulationSteps := by
  refine ⟨by norm_num [capReq], by norm_num [capReq], by norm_num [capReq],
    by norm_num [capReq], ?_⟩
  show 1000000 < (simulateState capReq).steps
  have hsteps : (simulateState capReq).steps = 1000001 := by
    rw [simulateState, show capReq.dt = (1 : ℝ) from rfl, initState_capReq,
      show (1000001 : ℕ) = 1000000 + 1 from rfl, simLoop_succ,
      if_pos (by norm_num), capReq_step, if_neg (by norm_num)]
    exact capRun 1000000 _ rfl (by norm_num) (by norm_num) (by norm_num)
      (by norm_num)
  omega

end ProjectileClaims4
